import Mathlib

/-!
# Verification of the OSCAL component-definition build utilities

Shallow embedding of `utils/oscal/params_extractor.py`,
`utils/oscal/rules_transformer.py` and `utils/oscal/build_cd_for_product.py`.

Python dictionaries are modelled as association lists where a fresh
assignment is consed on the front and lookup takes the first match, so a
later assignment shadows an earlier one exactly as `d[k] = v` does.
Python sets are modelled as lists with guarded insertion (membership is
all that matters).  Python string operations (`str.replace`, which
replaces every occurrence, `str.split`, `str.strip`, `str.endswith`) are
modelled by the corresponding Lean `String` operations; `String.splitOn`
agrees with Python `split` for a non-empty separator.
-/

namespace OscalCD

/-! ## Python string primitives

Lean core's `String.replace`, `String.splitOn`, … are loop-based and do
not reduce in the kernel, so the Python string operations are embedded
as structural recursions over the underlying `List Char`. -/

/-- If `pat` is a prefix of `s`, return the remainder of `s`. -/
def dropPrefixCh : List Char → List Char → Option (List Char)
  | [], s => some s
  | _ :: _, [] => none
  | p :: ps, c :: cs => if p = c then dropPrefixCh ps cs else none

/-- Fuel-driven worker for `pyReplace`: left-to-right, non-overlapping
replacement of every occurrence, exactly Python `str.replace` for a
non-empty pattern.  The fuel is always started at the length of the
string, which suffices because each step consumes at least one
character. -/
def pyReplaceAux (pat rep : List Char) : Nat → List Char → List Char
  | _, [] => []
  | 0, s => s
  | fuel + 1, c :: cs =>
    match dropPrefixCh pat (c :: cs) with
    | some remainder => rep ++ pyReplaceAux pat rep fuel remainder
    | none => c :: pyReplaceAux pat rep fuel cs

/-- Python `s.replace(pat, rep)` for a non-empty `pat` (every call site
uses a fixed non-empty literal pattern). -/
def pyReplace (s pat rep : String) : String :=
  ⟨pyReplaceAux pat.data rep.data s.data.length s.data⟩

/-- Fuel-driven worker for `pySplit`. -/
def pySplitAux (sep : List Char) : Nat → List Char → List (List Char)
  | _, [] => [[]]
  | 0, s => [s]
  | fuel + 1, c :: cs =>
    match dropPrefixCh sep (c :: cs) with
    | some remainder => [] :: pySplitAux sep fuel remainder
    | none =>
      match pySplitAux sep fuel cs with
      | fld :: flds => (c :: fld) :: flds
      | [] => [[c]]

/-- Python `s.split(sep)` for a non-empty separator. -/
def pySplit (s sep : String) : List String :=
  (pySplitAux sep.data s.data.length s.data).map String.mk

/-- Python `s.endswith(suffix)`. -/
def pyEndsWith (s suffix : String) : Bool :=
  suffix.data.isSuffixOf s.data

/-- Python `s.strip()`: drop whitespace from both ends. -/
def pyStrip (s : String) : String :=
  ⟨(((s.data.dropWhile Char.isWhitespace).reverse).dropWhile Char.isWhitespace).reverse⟩

/-- Python `d[k] = v` on a dict modelled as an association list:
the new binding shadows any earlier one. -/
def dset {α : Type} (m : List (String × α)) (k : String) (v : α) : List (String × α) :=
  (k, v) :: m

/-- Python `d.get(k)` / `d[k]`: first (most recent) binding wins. -/
def dget {α : Type} (m : List (String × α)) (k : String) : Option α :=
  (m.find? (fun p => p.1 == k)).map (fun p => p.2)

/-- Python `k in d`. -/
def dmem {α : Type} (m : List (String × α)) (k : String) : Bool :=
  m.any (fun p => p.1 == k)

/-- Python `s.add(x)` on a set modelled as a duplicate-free-enough list. -/
def sadd (s : List String) (x : String) : List String :=
  if x ∈ s then s else x :: s

/-- Decidable equality for `Except`, used to evaluate the embedded
operations on concrete inputs. -/
instance exceptDecEq {ε α : Type} [DecidableEq ε] [DecidableEq α] :
    DecidableEq (Except ε α)
  | .ok a, .ok b =>
    if h : a = b then .isTrue (by rw [h]) else .isFalse (by simp [h])
  | .ok _, .error _ => .isFalse (by simp)
  | .error _, .ok _ => .isFalse (by simp)
  | .error a, .error b =>
    if h : a = b then .isTrue (by rw [h]) else .isFalse (by simp [h])

/-! ## Parameter extraction (`utils/oscal/params_extractor.py`) -/

/-- `VAR_FILE_EXTENSION = ".var"` -/
def VAR_FILE_EXTENSION : String := ".var"

/-- `ParamInfo`: parameter id, description, default value (`_value`) and
the option map.  `set_default_value` and `set_options` are modelled as
functional updates; aliasing through the extractor's store is made
explicit where the Python code mutates a shared object. -/
structure ParamInfo where
  id : String
  description : String
  value : String
  options : List (String × String)
deriving Repr, DecidableEq

/-- `ParamInfo.set_default_value` -/
def ParamInfo.set_default_value (p : ParamInfo) (v : String) : ParamInfo :=
  { p with value := v }

/-- `ParamInfo.set_options` -/
def ParamInfo.set_options (p : ParamInfo) (o : List (String × String)) : ParamInfo :=
  { p with options := o }

/-- One on-disk var file: its base name (`os.path.basename(file)`) and the
result of the external loader `ssg.build_yaml.Value.from_yaml`, which
yields a raw description and an option map, or fails with `ValueError`
(`none`). -/
structure VarFile where
  name : String
  parsed : Option (String × List (String × String))
deriving Repr, DecidableEq

/-- `find_var_files`: keep the files with the `.var` extension. -/
def find_var_files (files : List VarFile) : List VarFile :=
  files.filter (fun f => pyEndsWith f.name VAR_FILE_EXTENSION)

/-- The body of the `try` block of `ParameterExtractor.__init__` for one
file: parse the file, derive the id by
`os.path.basename(file).replace(VAR_FILE_EXTENSION, "")` (Python
`replace` removes every occurrence), require a `"default"` option
(`required_key`), and build the `ParamInfo`.  `none` is the caught
`ValueError` (the file is skipped with a warning). -/
def loadVarFile (f : VarFile) : Option (String × ParamInfo) :=
  match f.parsed with
  | none => none
  | some (desc, options) =>
    let parameter_id := pyReplace f.name VAR_FILE_EXTENSION ""
    match dget options "default" with
    | none => none
    | some dflt =>
      let param_obj : ParamInfo :=
        { id := parameter_id
          description := pyStrip (pyReplace desc "\n" " ")
          value := ""
          options := [] }
      let param_obj := param_obj.set_default_value dflt
      let param_obj := param_obj.set_options options
      some (parameter_id, param_obj)

/-- One iteration of the `for file in find_var_files(...)` loop of
`ParameterExtractor.__init__`: store the loaded parameter, or skip the
file when loading raised `ValueError`. -/
def extractStep (store : List (String × ParamInfo)) (f : VarFile) :
    List (String × ParamInfo) :=
  match loadVarFile f with
  | some (pid, pobj) => dset store pid pobj
  | none => store

/-- The store built by `ParameterExtractor.__init__`: scan the var files
in order, loading each and skipping the ones whose loading raises
`ValueError`. -/
def parameterExtractorInit (files : List VarFile) : List (String × ParamInfo) :=
  (find_var_files files).foldl extractStep []

/-- `ParameterExtractor.get_params_for_id`: exact lookup, `ValueError`
when absent. -/
def get_params_for_id (store : List (String × ParamInfo)) (param_id : String) :
    Except String ParamInfo :=
  if dmem store param_id then
    match dget store param_id with
    | some p => .ok p
    | none => .error ("Could not find parameter " ++ param_id)
  else
    .error ("Could not find parameter " ++ param_id)

/-! ## Rules transformer (`utils/oscal/rules_transformer.py`) -/

/-- `XCCDF_VARIABLE = "xccdf_variable"` -/
def XCCDF_VARIABLE : String := "xccdf_variable"

/-- `RuleInfo`: rule id, description (empty until loaded), source rule
directory, and the ordered list of attached parameters. -/
structure RuleInfo where
  id : String
  description : String
  rule_dir : String
  parameters : List ParamInfo
deriving Repr, DecidableEq

/-- `RuleInfo.add_description` -/
def RuleInfo.add_description (r : RuleInfo) (v : String) : RuleInfo :=
  { r with description := v }

/-- `RuleInfo.add_parameter` -/
def RuleInfo.add_parameter (r : RuleInfo) (p : ParamInfo) : RuleInfo :=
  { r with parameters := r.parameters ++ [p] }

/-- The view of a parsed rule definition used by `_load_rule_yaml` /
`_get_params_ids`: the (already product-normalized) raw description,
`is_templated()`, and `get_template_vars(env_yaml)`. -/
structure RuleYaml where
  description : String
  templated : Bool
  template_vars : List (String × String)
deriving Repr, DecidableEq

/-- The two exception kinds caught per rule inside `load`:
`ValueError` ("could not find") and `FileNotFoundError` ("could not
load"). -/
inductive LoadErr where
  | valueError (msg : String)
  | fileNotFound (msg : String)
deriving Repr, DecidableEq

/-- The state of a `RulesTransformer`: the precomputed
`rule_dirs.json` index (`rule_id -> dir`), the live benchmark-directory
index `rules_dirs_for_product`, and the external rule-file loader
(`ssg.rules.get_rule_dir_yaml` + `ssg.build_yaml.Rule.from_yaml` +
`normalize`); `none` models `FileNotFoundError`. -/
structure TransformerEnv where
  rule_json : List (String × String)
  rules_dirs_for_product : List (String × String)
  rule_yaml_of_dir : String → Option RuleYaml

/-- Python truthiness of an optional string (`if not rule_dir`): `None`
and `""` are both falsy. -/
def truthyStr : Option String → Option String
  | some "" => none
  | o => o

/-- `RulesTransformer._from_rules_json` -/
def from_rules_json (T : TransformerEnv) (rule_id : String) : Option String :=
  dget T.rule_json rule_id

/-- `RulesTransformer._from_product_dir` -/
def from_product_dir (T : TransformerEnv) (rule_id : String) : Option String :=
  dget T.rules_dirs_for_product rule_id

/-- `RulesTransformer._new_rule_obj`: json index first, then the product
directory index, else `ValueError`. -/
def new_rule_obj (T : TransformerEnv) (rule_id : String) : Except LoadErr RuleInfo :=
  match truthyStr (from_rules_json T rule_id) with
  | some rule_dir => .ok ⟨rule_id, "", rule_dir, []⟩
  | none =>
    match truthyStr (from_product_dir T rule_id) with
    | some rule_dir => .ok ⟨rule_id, "", rule_dir, []⟩
    | none =>
      .error (.valueError
        ("Could not find rule " ++ rule_id ++ " in rules json or product directory."))

/-- The parameter store owned by the `ParameterExtractor`, threaded
explicitly because the Python code mutates the stored `ParamInfo`
objects through aliases. -/
abbrev ParamStore := List (String × ParamInfo)

/-- `RulesTransformer._get_params_ids`: when the rule is templated on an
`xccdf_variable`, look the parameter up in the extractor (a miss is a
`ValueError`, hence a hard failure for this rule), apply any inline
override via `set_default_value` — which mutates the object stored in
the extractor, modelled by writing the updated object back into the
store — and attach it to the rule. -/
def get_params_ids (ry : RuleYaml) (rule_obj : RuleInfo)
    (param_values : List (String × String)) (store : ParamStore) :
    Except LoadErr (RuleInfo × ParamStore) :=
  if !ry.templated then
    .ok (rule_obj, store)
  else
    match dget ry.template_vars XCCDF_VARIABLE with
    | some param_id =>
      match get_params_for_id store param_id with
      | .error e => .error (.valueError e)
      | .ok param =>
        if param_values ≠ [] ∧ dmem param_values param_id then
          match dget param_values param_id with
          | some v =>
            let param := param.set_default_value v
            .ok (rule_obj.add_parameter param, dset store param_id param)
          | none => .ok (rule_obj.add_parameter param, store)
        else
          .ok (rule_obj.add_parameter param, store)
    | none => .ok (rule_obj, store)

/-- `RulesTransformer._load_rule_yaml`: read the rule file (a missing
file is `FileNotFoundError`), normalize the description
(`.replace("\n", " ").replace("<p>", "").replace("</p>", "").strip()`),
then resolve the parameters. -/
def load_rule_yaml (T : TransformerEnv) (rule_obj : RuleInfo)
    (param_values : List (String × String)) (store : ParamStore) :
    Except LoadErr (RuleInfo × ParamStore) :=
  match T.rule_yaml_of_dir rule_obj.rule_dir with
  | none =>
    .error (.fileNotFound ("No rule yaml in directory " ++ rule_obj.rule_dir))
  | some ry =>
    let description :=
      pyStrip (pyReplace (pyReplace (pyReplace ry.description "\n" " ") "<p>" "") "</p>" "")
    let rule_obj := rule_obj.add_description description
    get_params_ids ry rule_obj param_values store

/-- `RulesTransformer._process_rule_ids`: an entry that splits on `"="`
into exactly two parts is an inline parameter override; everything else
is a rule id. -/
def processRuleIdsAux : List String → List String → List (String × String) →
    List String × List (String × String)
  | [], processed, params_values => (processed, params_values)
  | rule_id :: rest, processed, params_values =>
    match pySplit rule_id "=" with
    | [param_id, v] => processRuleIdsAux rest processed (dset params_values param_id v)
    | _ => processRuleIdsAux rest (processed ++ [rule_id]) params_values

/-- `RulesTransformer._process_rule_ids` -/
def process_rule_ids (rule_ids : List String) : List String × List (String × String) :=
  processRuleIdsAux rule_ids [] []

/-- One iteration of the `for rule_id in rules` loop body of `load`:
`_new_rule_obj` then `_load_rule_yaml`. -/
def attemptRule (T : TransformerEnv) (param_values : List (String × String))
    (rule_id : String) (store : ParamStore) : Except LoadErr (RuleInfo × ParamStore) :=
  match new_rule_obj T rule_id with
  | .error e => .error e
  | .ok rule_obj => load_rule_yaml T rule_obj param_values store

/-- The accumulation loop of `load`: collect the successfully loaded
rule objects in order, and one error string per failed rule
(`ValueError` → "Could not find rule …", `FileNotFoundError` →
"Could not load rule …"). -/
def loadLoop (T : TransformerEnv) (param_values : List (String × String)) :
    List String → ParamStore → List RuleInfo × List String × ParamStore
  | [], store => ([], [], store)
  | rule_id :: rest, store =>
    match attemptRule T param_values rule_id store with
    | .ok (rule_obj, store') =>
      let (objs, errs, store'') := loadLoop T param_values rest store'
      (rule_obj :: objs, errs, store'')
    | .error (.valueError e) =>
      let (objs, errs, store') := loadLoop T param_values rest store
      (objs, ("Could not find rule " ++ rule_id ++ ": " ++ e) :: errs, store')
    | .error (.fileNotFound e) =>
      let (objs, errs, store') := loadLoop T param_values rest store
      (objs, ("Could not load rule " ++ rule_id ++ ": " ++ e) :: errs, store')

/-- The `RuntimeError` message raised when any rule failed (the Python
f-string contains a backslash line continuation, so the indentation of
the continuation line is part of the message). -/
def aggregate_error (rule_errors : List String) : String :=
  "Error loading rules: " ++ "                    " ++ "\n" ++
    String.intercalate ", " rule_errors

/-- `RulesTransformer.load`: preprocess the requested ids, attempt every
rule, and either return all loaded rules or raise one aggregate error.
The updated parameter store is returned as the second component to make
the mutation of the shared `ParamInfo` objects observable. -/
def load (T : TransformerEnv) (store : ParamStore) (rules : List String) :
    Except String (List RuleInfo) × ParamStore :=
  let processed := process_rule_ids rules
  let res := loadLoop T processed.2 processed.1 store
  (if res.2.1.length > 0 then .error (aggregate_error res.2.1) else .ok res.1,
   res.2.2)

/-! ## Rule-to-property transformation

`Property`, `add_prop`, the trestle property-name constants and the
rule-set id scheme live outside `src/` and are modelled from the spec. -/

/-- Modelled from the spec: a `Property` is a namespaced key/value
triple `(name, value, namespace-or-ruleset-id)`; `utils.oscal.add_prop`
is referenced by `rules_transformer.py` but absent from the sources. -/
structure Property where
  name : String
  value : String
  ruleset : String
deriving Repr, DecidableEq

/-- Modelled from the spec: `add_prop` builds one namespaced property. -/
def add_prop (name value ruleset : String) : Property :=
  ⟨name, value, ruleset⟩

/-- Modelled from the spec: trestle's `RULE_ID` property-name marker
(only its identity matters here). -/
def RULE_ID : String := "Rule_Id"

/-- Modelled from the spec: trestle's `RULE_DESCRIPTION` marker. -/
def RULE_DESCRIPTION : String := "Rule_Description"

/-- Modelled from the spec: trestle's `PARAMETER_ID` marker. -/
def PARAMETER_ID : String := "Parameter_Id"

/-- Modelled from the spec: trestle's `PARAMETER_DESCRIPTION` marker. -/
def PARAMETER_DESCRIPTION : String := "Parameter_Description"

/-- Modelled from the spec: trestle's `PARAMETER_VALUE_DEFAULT`
marker. -/
def PARAMETER_VALUE_DEFAULT : String := "Parameter_Value_Default"

/-- Modelled from the spec: trestle's `PARAMETER_VALUE_ALTERNATIVES`
marker. -/
def PARAMETER_VALUE_ALTERNATIVES : String := "Parameter_Value_Alternatives"

/-- Modelled from the spec: Python `str()` of the option map, the
"options-as-string" rendering used for the alternatives property. -/
def pyDictStr (opts : List (String × String)) : String :=
  "\x7b" ++
    String.intercalate ", "
      (opts.map (fun p => "\x27" ++ p.1 ++ "\x27: \x27" ++ p.2 ++ "\x27")) ++
    "\x7d"

/-- Pad a decimal rendering with leading zeros to the given width. -/
def zfill (width : Nat) (s : String) : String :=
  ⟨List.replicate (width - s.data.length) '0' ++ s.data⟩

/-- Modelled from the spec: the rule-set id assigned by trestle's
`_RuleSetIdMgr(i, total).get_next_rule_set_id()` — a pure function of
the rule's position and the total rule count. -/
def ruleSetId (i total : Nat) : String :=
  "rule_set_" ++ zfill (toString total).data.length (toString i)

/-- `RulesTransformer._get_params_properties`: the four parameter
properties, in order. -/
def get_params_properties (ruleset : String) (_rule_id : String)
    (param_info : ParamInfo) : List Property :=
  let id_prop := add_prop PARAMETER_ID param_info.id ruleset
  let description_prop := add_prop PARAMETER_DESCRIPTION param_info.description ruleset
  let default_prop := add_prop PARAMETER_VALUE_DEFAULT param_info.value ruleset
  let alternative_prop := add_prop PARAMETER_VALUE_ALTERNATIVES (pyDictStr param_info.options) ruleset
  [id_prop, description_prop, default_prop, alternative_prop]

/-- `RulesTransformer._get_rule_properties`: id and description
properties, then the property quadruple of every attached parameter in
order. -/
def get_rule_properties (ruleset : String) (rule_obj : RuleInfo) : List Property :=
  [add_prop RULE_ID rule_obj.id ruleset,
   add_prop RULE_DESCRIPTION rule_obj.description ruleset] ++
    (rule_obj.parameters.map (get_params_properties ruleset rule_obj.id)).flatten

/-- The `for i, rule_obj in enumerate(rule_objs)` loop of
`RulesTransformer.transform`. -/
def transformAux (total : Nat) : Nat → List RuleInfo → List Property
  | _, [] => []
  | i, rule_obj :: rest =>
    get_rule_properties (ruleSetId i total) rule_obj ++ transformAux total (i + 1) rest

/-- `RulesTransformer.transform` -/
def transform (rule_objs : List RuleInfo) : List Property :=
  transformAux rule_objs.length 0 rule_objs

/-- Written from the spec's words (§4.4), for comparison with
`transform`: for one rule, an id property, a description property, then
for each attached parameter an id/description/default-value/options
quadruple, all under the rule's namespace. -/
def ruleBlockSpec (ns : String) (r : RuleInfo) : List Property :=
  [⟨RULE_ID, r.id, ns⟩, ⟨RULE_DESCRIPTION, r.description, ns⟩] ++
    (r.parameters.map (fun p =>
      [(⟨PARAMETER_ID, p.id, ns⟩ : Property),
       ⟨PARAMETER_DESCRIPTION, p.description, ns⟩,
       ⟨PARAMETER_VALUE_DEFAULT, p.value, ns⟩,
       ⟨PARAMETER_VALUE_ALTERNATIVES, pyDictStr p.options, ns⟩])).flatten

/-- Written from the spec's words (§4.4): rule 0's block, then rule 1's
block, … with the namespace a pure function of (index, total). -/
def transformSpec (rule_objs : List RuleInfo) : List Property :=
  (rule_objs.enum.map (fun x => ruleBlockSpec (ruleSetId x.1 rule_objs.length) x.2)).flatten

/-! ## Control tree (`utils/oscal/build_cd_for_product.py`)

Parts nest recursively; the nesting is a mutual inductive so that all
functions over it are structural recursions (hence kernel-evaluable).
`ControlInterface.get_label` returns `''` when a node has no label, so a
label is modelled as a `String` with `""` meaning "unlabeled". -/

mutual
inductive PartT where
  | mk (id : String) (label : String) (parts : PartForest)
inductive PartForest where
  | nil
  | cons (head : PartT) (tail : PartForest)
end

/-- The id of a part. -/
def PartT.id : PartT → String
  | .mk i _ _ => i

/-- A control as yielded by
`CatalogInterface(resolved_catalog).get_all_controls_from_dict()`:
id, label (possibly `""`), nested parts, free-text notes. -/
structure Control where
  id : String
  label : String
  parts : PartForest
  notes : String

/-- The pair of accumulators of `resolve_profile_to_controls`:
`profile_controls` (a set of ids) and `controls_by_label`. -/
abbrev TreeIndex := List String × List (String × String)

mutual
/-- `ComponentDefinitionGenerator.handle_parts` applied to one part:
loop over its sub-parts. -/
def handle_parts : PartT → TreeIndex → TreeIndex
  | .mk _ _ pparts, st => handle_parts_forest pparts st
/-- The `for part in control.parts` loop of `handle_parts`: add the
part's id, record its label when present, and recurse into the part —
recursion into a part is unconditional here, unlike at the top level. -/
def handle_parts_forest : PartForest → TreeIndex → TreeIndex
  | .nil, st => st
  | .cons (PartT.mk pid plabel pparts) rest, (profile_controls, controls_by_label) =>
    let profile_controls := sadd profile_controls pid
    let controls_by_label :=
      if plabel ≠ "" then dset controls_by_label plabel pid else controls_by_label
    let st := handle_parts_forest pparts (profile_controls, controls_by_label)
    handle_parts_forest rest st
end

/-- The `for control in …get_all_controls_from_dict()` loop of
`resolve_profile_to_controls`: every control's id is added, but
`handle_parts` is only invoked inside the `if label:` branch, so the
parts of an unlabeled control are never traversed. -/
def resolveAux : List Control → TreeIndex → TreeIndex
  | [], st => st
  | control :: rest, (profile_controls, controls_by_label) =>
    let profile_controls := sadd profile_controls control.id
    let st :=
      if control.label ≠ "" then
        handle_parts_forest control.parts
          (profile_controls, dset controls_by_label control.label control.id)
      else
        (profile_controls, controls_by_label)
    resolveAux rest st

/-- `ComponentDefinitionGenerator.resolve_profile_to_controls` -/
def resolve_profile_to_controls (catalog_controls : List Control) : TreeIndex :=
  resolveAux catalog_controls ([], [])

mutual
/-- All ids in the subtree rooted at a part (itself included). -/
def partIds : PartT → List String
  | .mk i _ ps => i :: forestIds ps
/-- All ids in a forest of parts. -/
def forestIds : PartForest → List String
  | .nil => []
  | .cons p rest => partIds p ++ forestIds rest
end

mutual
/-- The `(label, id)` pairs of the labeled nodes of a part's subtree
(itself included). -/
def partLabels : PartT → List (String × String)
  | .mk i l ps => (if l ≠ "" then [(l, i)] else []) ++ forestLabels ps
/-- The `(label, id)` pairs of the labeled nodes of a forest. -/
def forestLabels : PartForest → List (String × String)
  | .nil => []
  | .cons p rest => partLabels p ++ forestLabels rest
end

/-- `ComponentDefinitionGenerator.get_profile_control_id`: known label
first, then known id, else `None` (logged, not raised). -/
def get_profile_control_id (profile_controls : List String)
    (controls_by_label : List (String × String)) (control_name : String) :
    Option String :=
  if dmem controls_by_label control_name then
    dget controls_by_label control_name
  else if control_name ∈ profile_controls then
    some control_name
  else
    none

/-- A control as yielded by the policy's
`controls_mgr.get_all_controls(policy_id)`: only its id and notes are
read by the builder. -/
structure PolicyControl where
  id : String
  notes : String
deriving Repr, DecidableEq

/-- An `ImplementedRequirement` as filled in by the builder: resolved
control id and the policy control's notes. -/
structure ImplementedRequirement where
  control_id : String
  description : String
deriving Repr, DecidableEq

/-- `ComponentDefinitionGenerator.create_implemented_requirement`:
`None` (skip, after a warning from `get_profile_control_id`) when the
control does not resolve. -/
def create_implemented_requirement (profile_controls : List String)
    (controls_by_label : List (String × String)) (control : PolicyControl) :
    Option ImplementedRequirement :=
  match get_profile_control_id profile_controls controls_by_label control.id with
  | some control_id => some ⟨control_id, control.notes⟩
  | none => none

/-- The accumulation loop of
`ComponentDefinitionGenerator.get_control_implementation`: one record
per resolvable control, in policy order. -/
def get_control_implementation (profile_controls : List String)
    (controls_by_label : List (String × String)) :
    List PolicyControl → List ImplementedRequirement
  | [] => []
  | control :: rest =>
    match create_implemented_requirement profile_controls controls_by_label control with
    | some implemented_req =>
      implemented_req :: get_control_implementation profile_controls controls_by_label rest
    | none => get_control_implementation profile_controls controls_by_label rest

/-! ## Derived views used by the theorems -/

/-- The per-rule outcome of one iteration of `load`'s loop over an
initial store: `none` when the rule loads, `some msg` with the error
string that `load` would accumulate otherwise. -/
def ruleError (T : TransformerEnv) (param_values : List (String × String))
    (store : ParamStore) (rule_id : String) : Option String :=
  match attemptRule T param_values rule_id store with
  | .ok _ => none
  | .error (.valueError e) => some ("Could not find rule " ++ rule_id ++ ": " ++ e)
  | .error (.fileNotFound e) => some ("Could not load rule " ++ rule_id ++ ": " ++ e)

/-- A var file that `ParameterExtractor.__init__` accepts: right
extension and loadable. -/
def goodVarFile (f : VarFile) : Bool :=
  pyEndsWith f.name VAR_FILE_EXTENSION && (loadVarFile f).isSome

/-! ## Concrete fixtures for counterexamples and witnesses -/

/-- A single unlabeled control with one part. -/
def c1CexControls : List Control :=
  [⟨"c1", "", .cons (PartT.mk "p1" "" .nil) .nil, ""⟩]

/-- A labeled control with a labeled part and a label-less sub-part. -/
def c1WitControl : Control :=
  ⟨"AC-1", "ac-1",
    .cons (PartT.mk "AC-1_smt" "smt" (.cons (PartT.mk "AC-1_smt.a" "" .nil) .nil)) .nil,
    "impl note"⟩

/-- Control "a" carries label "b", while "b" is the id of a second,
unlabeled control. -/
def c5CexControls : List Control :=
  [⟨"a", "b", .nil, ""⟩, ⟨"b", "", .nil, ""⟩]

/-- A policy's controls: one resolvable against `c1WitControl`'s index,
one ("ZZ-99") unknown to it. -/
def c9Policy : List PolicyControl :=
  [⟨"AC-1", "impl note"⟩, ⟨"ZZ-99", "x"⟩]

/-- A var file whose base name contains ".var" twice. -/
def c4CexFile : VarFile := ⟨"a.var.var", some ("d", [("default", "x")])⟩

/-- An ordinary var file. -/
def c4WitFile : VarFile := ⟨"sshd_timeout.var", some ("time out", [("default", "300")])⟩

/-- A var file whose option map lacks a "default" entry. -/
def c8BadFile : VarFile := ⟨"bad.var", some ("d", [("var1", "x")])⟩

/-- A well-formed var file. -/
def c8GoodFile : VarFile := ⟨"P1.var", some ("desc", [("default", "foo"), ("alt", "bar")])⟩

/-- A stored parameter with default "foo". -/
def paramP : ParamInfo := ⟨"P", "param desc", "foo", [("default", "foo")]⟩

/-- A parameter store holding only `paramP`. -/
def storeP : ParamStore := [("P", paramP)]

/-- A rule definition templated on parameter "P". -/
def ruleYamlTemplated : RuleYaml := ⟨"Rule one.", true, [(XCCDF_VARIABLE, "P")]⟩

/-- A plain, untemplated rule definition. -/
def ruleYamlPlain : RuleYaml := ⟨"<p>Plain rule.</p>", false, []⟩

/-- A rule definition whose description normalizes to the empty
string. -/
def ruleYamlEmptyDesc : RuleYaml := ⟨"<p></p>", false, []⟩

/-- A transformer over two known rules, `rule_a` (templated on "P") and
`rule_b` (plain). -/
def envTwoRules : TransformerEnv :=
  ⟨[("rule_a", "dir_a"), ("rule_b", "dir_b")], [],
   fun d =>
     if d = "dir_a" then some ruleYamlTemplated
     else if d = "dir_b" then some ruleYamlPlain
     else none⟩

/-- A transformer whose single rule has an empty description. -/
def envEmptyDesc : TransformerEnv :=
  ⟨[("r1", "dir1")], [], fun d => if d = "dir1" then some ruleYamlEmptyDesc else none⟩

/-! # Theorems -/

/-! ## Dictionary and set helper lemmas -/

theorem dget_dset {α : Type} (m : List (String × α)) (k : String) (v : α) :
    dget (dset m k v) k = some v := by
  simp [dget, dset]

theorem dmem_dset {α : Type} (m : List (String × α)) (k k' : String) (v : α) :
    dmem (dset m k v) k' = (k == k' || dmem m k') := by
  simp [dmem, dset]

theorem dmem_iff_dget {α : Type} (m : List (String × α)) (k : String) :
    dmem m k = true ↔ (dget m k).isSome := by
  induction m with
  | nil => simp [dmem, dget]
  | cons p rest ih =>
    by_cases h : p.1 == k
    · simp [dmem, dget, List.find?, h]
    · simp only [dmem, dget, List.any_cons, List.find?] at *
      simp only [h, Bool.false_or, Bool.false_eq_true] at *
      exact ih

theorem dmem_of_dget {α : Type} {m : List (String × α)} {k : String} {v : α}
    (h : dget m k = some v) : dmem m k = true := by
  rw [dmem_iff_dget, h]
  rfl

theorem mem_sadd_self (s : List String) (x : String) : x ∈ sadd s x := by
  unfold sadd
  split
  · assumption
  · exact List.mem_cons_self x s

theorem mem_sadd_of_mem {s : List String} {x : String} (y : String)
    (h : x ∈ s) : x ∈ sadd s y := by
  unfold sadd
  split
  · exact h
  · exact List.mem_cons_of_mem y h

theorem dmem_dset_of {α : Type} {m : List (String × α)} {k : String}
    (k' : String) (v : α) (h : dmem m k = true) : dmem (dset m k' v) k = true := by
  rw [dmem_dset, h, Bool.or_true]

theorem dmem_dset_self {α : Type} (m : List (String × α)) (k : String) (v : α) :
    dmem (dset m k v) k = true := by
  rw [dmem_dset]
  simp

/-! ## C10: override classification in `_process_rule_ids` -/

theorem processRuleIdsAux_spec (l : List String) :
    ∀ (acc1 : List String) (acc2 : List (String × String)),
    processRuleIdsAux l acc1 acc2 =
      (acc1 ++ l.filter (fun r => (pySplit r "=").length != 2),
       (l.filterMap (fun r =>
          match pySplit r "=" with
          | [k, v] => some (k, v)
          | _ => none)).reverse ++ acc2) := by
  induction l with
  | nil => intro acc1 acc2; simp [processRuleIdsAux]
  | cons r rest ih =>
    intro acc1 acc2
    cases h : pySplit r "=" with
    | nil =>
      simp only [processRuleIdsAux, h, List.filter_cons, List.filterMap_cons, ih]
      simp [h]
    | cons a tail =>
      cases tail with
      | nil =>
        simp only [processRuleIdsAux, h, List.filter_cons, List.filterMap_cons, ih]
        simp [h]
      | cons b tail2 =>
        cases tail2 with
        | nil =>
          simp only [processRuleIdsAux, h, List.filter_cons, List.filterMap_cons, ih]
          simp [h, dset]
        | cons c tail3 =>
          simp only [processRuleIdsAux, h, List.filter_cons, List.filterMap_cons, ih]
          simp [h]

/-- **C10**: an entry of the requested rule-id list is extracted as an
inline parameter override exactly when splitting it on "=" yields
exactly two parts (the plain entries are kept in request order, the
two-part entries become the override map); in particular "a=b=c",
which splits into three parts, is kept as a plain rule id and not
extracted as an override. -/
theorem process_rule_ids_classification (rule_ids : List String) :
    (process_rule_ids rule_ids).1 =
        rule_ids.filter (fun r => (pySplit r "=").length != 2) ∧
    (process_rule_ids rule_ids).2 =
        (rule_ids.filterMap (fun r =>
           match pySplit r "=" with
           | [k, v] => some (k, v)
           | _ => none)).reverse ∧
    (process_rule_ids ["a=b=c"]).1 = ["a=b=c"] ∧
    (process_rule_ids ["a=b=c"]).2 = [] := by
  refine ⟨?_, ?_, by decide, by decide⟩ <;>
    simp [process_rule_ids, processRuleIdsAux_spec]

/-! ## C4: parameter-id derivation from the file name -/

theorem extractStep_dmem_mono (store : List (String × ParamInfo)) (f : VarFile)
    (k : String) (h : dmem store k = true) : dmem (extractStep store f) k = true := by
  unfold extractStep
  split
  · exact dmem_dset_of _ _ h
  · exact h

theorem foldl_extract_dmem_mono (l : List VarFile) :
    ∀ (store : List (String × ParamInfo)) (k : String), dmem store k = true →
      dmem (l.foldl extractStep store) k = true := by
  induction l with
  | nil => intro store k h; simpa using h
  | cons f rest ih =>
    intro store k h
    exact ih _ k (extractStep_dmem_mono store f k h)

theorem dmem_foldl_extract_of_mem (l : List VarFile) :
    ∀ (f : VarFile), f ∈ l → ∀ (pid : String) (p : ParamInfo),
      loadVarFile f = some (pid, p) →
      ∀ (store : List (String × ParamInfo)),
        dmem (l.foldl extractStep store) pid = true := by
  induction l with
  | nil => intro f hf; cases hf
  | cons g rest ih =>
    intro f hf pid p hl store
    rcases List.mem_cons.mp hf with rfl | hmem
    · rw [List.foldl_cons]
      apply foldl_extract_dmem_mono
      unfold extractStep
      rw [hl]
      exact dmem_dset_self _ _ _
    · rw [List.foldl_cons]
      exact ih f hmem pid p hl _

theorem loadVarFile_id_of_isSome : ∀ {f : VarFile}, (loadVarFile f).isSome →
    ∃ p, loadVarFile f = some (pyReplace f.name VAR_FILE_EXTENSION "", p)
  | ⟨_, none⟩, h => by simp [loadVarFile] at h
  | ⟨name, some (desc, options)⟩, h => by
    simp only [loadVarFile] at h ⊢
    cases hd : dget options "default" with
    | none => rw [hd] at h; simp at h
    | some dflt => exact ⟨_, rfl⟩

/-- **C4** counterexample: the var file "a.var.var" is accepted, but the
stored parameter id is "a" (every occurrence of ".var" is removed by
`str.replace`), not "a.var" (only the suffix stripped) as the claim
requires. -/
theorem param_id_not_only_suffix_stripped :
    dmem (parameterExtractorInit [c4CexFile]) "a.var" = false ∧
    dmem (parameterExtractorInit [c4CexFile]) "a" = true := by
  decide

/-- **C4** (amended): for every parameter-definition file accepted by
the repository, the stored parameter id equals the file's base name
with **every** occurrence of ".var" removed (Python `str.replace`
replaces all occurrences, not just the trailing suffix). -/
theorem param_id_strips_every_var_occurrence (files : List VarFile) (f : VarFile)
    (hf : f ∈ files) (hgood : goodVarFile f = true) :
    dmem (parameterExtractorInit files) (pyReplace f.name VAR_FILE_EXTENSION "") = true := by
  unfold goodVarFile at hgood
  obtain ⟨hext, hsome⟩ := Bool.and_eq_true_iff.mp hgood
  obtain ⟨p, hl⟩ := loadVarFile_id_of_isSome hsome
  unfold parameterExtractorInit
  apply dmem_foldl_extract_of_mem _ f _ _ p hl
  unfold find_var_files
  exact List.mem_filter.mpr ⟨hf, hext⟩

/-- Witness for C4 (amended): a concrete ordinary var file; the stored
id is "sshd_timeout". -/
theorem param_id_strips_every_var_occurrence_witness :
    goodVarFile c4WitFile = true ∧
    dmem (parameterExtractorInit [c4WitFile]) "sshd_timeout" = true := by
  refine ⟨by decide, ?_⟩
  have h := param_id_strips_every_var_occurrence [c4WitFile] c4WitFile
    (List.Mem.head _) (by decide)
  exact (by decide : pyReplace c4WitFile.name VAR_FILE_EXTENSION "" = "sshd_timeout") ▸ h

/-! ## C8: partial-failure tolerance of the parameter repository -/

theorem foldl_extract_filter (l : List VarFile) :
    ∀ (store : List (String × ParamInfo)),
      l.foldl extractStep store =
        (l.filter (fun f => (loadVarFile f).isSome)).foldl extractStep store := by
  induction l with
  | nil => intro store; rfl
  | cons f rest ih =>
    intro store
    cases hl : loadVarFile f with
    | none =>
      simp only [List.foldl_cons, List.filter_cons]
      have hstep : extractStep store f = store := by unfold extractStep; rw [hl]
      simp [hl, hstep, ih]
    | some pr =>
      simp only [List.foldl_cons, List.filter_cons]
      simp [hl, ih]

/-- **C8**: during repository construction a file that fails value
parsing (for example, an option map without a "default" entry) is
skipped while every other file is still loaded (the store is the same
as if the bad files had not been there), and after construction
`get_params_for_id` returns the stored parameter for a loaded id and
fails with "Could not find parameter …" for an absent id.  The last two
conjuncts evaluate this on a concrete pair of files, one lacking
"default". -/
theorem parameter_repository_partial_failure (files : List VarFile) :
    parameterExtractorInit files =
      parameterExtractorInit (files.filter (fun f => (loadVarFile f).isSome)) ∧
    (∀ id p, dget (parameterExtractorInit files) id = some p →
      get_params_for_id (parameterExtractorInit files) id = .ok p) ∧
    (∀ id, dmem (parameterExtractorInit files) id = false →
      get_params_for_id (parameterExtractorInit files) id =
        .error ("Could not find parameter " ++ id)) ∧
    parameterExtractorInit [c8BadFile, c8GoodFile] =
      [("P1", ⟨"P1", "desc", "foo", [("default", "foo"), ("alt", "bar")]⟩)] := by
  refine ⟨?_, ?_, ?_, by decide⟩
  · unfold parameterExtractorInit find_var_files
    rw [foldl_extract_filter]
    congr 1
    simp [List.filter_filter, Bool.and_comm]
  · intro id p h
    unfold get_params_for_id
    rw [dmem_of_dget h, h]
    simp
  · intro id h
    unfold get_params_for_id
    rw [h]
    simp

/-- Witness for C8: on the concrete two-file store, lookup of the loaded
id "P1" succeeds with the stored parameter and lookup of an absent id
fails with the NotFound error. -/
theorem parameter_repository_partial_failure_witness :
    get_params_for_id (parameterExtractorInit [c8BadFile, c8GoodFile]) "P1" =
      .ok ⟨"P1", "desc", "foo", [("default", "foo"), ("alt", "bar")]⟩ ∧
    get_params_for_id (parameterExtractorInit [c8BadFile, c8GoodFile]) "missing" =
      .error ("Could not find parameter " ++ "missing") :=
  ⟨(parameter_repository_partial_failure [c8BadFile, c8GoodFile]).2.1 "P1" _ (by decide),
   (parameter_repository_partial_failure [c8BadFile, c8GoodFile]).2.2.1 "missing" (by decide)⟩

/-! ## C5: resolution by label, then by id -/

/-- **C5** counterexample: in the index built from `c5CexControls`, the
id "b" is in `known_ids`, yet `get_profile_control_id "b"` returns
"a" (the label entry for "b" shadows the id lookup), so querying an id
that is in `known_ids` does not always return that id itself. -/
theorem resolver_label_shadows_known_id :
    "b" ∈ (resolve_profile_to_controls c5CexControls).1 ∧
    get_profile_control_id (resolve_profile_to_controls c5CexControls).1
        (resolve_profile_to_controls c5CexControls).2 "b" = some "a" ∧
    get_profile_control_id (resolve_profile_to_controls c5CexControls).1
        (resolve_profile_to_controls c5CexControls).2 "b" ≠ some "b" := by
  decide

/-- **C5** (amended): `get_profile_control_id` returns the mapped id
when the name is a known label; returns the name unchanged when it is
not a known label but is itself in `known_ids`; and otherwise returns a
not-found `none` (logged, not raised).  Consequently an id in
`known_ids` resolves to itself provided it is not also a recorded
label. -/
theorem get_profile_control_id_cases (profile_controls : List String)
    (controls_by_label : List (String × String)) (control_name : String) :
    (dmem controls_by_label control_name = true →
      get_profile_control_id profile_controls controls_by_label control_name =
        dget controls_by_label control_name) ∧
    (dmem controls_by_label control_name = false →
      control_name ∈ profile_controls →
      get_profile_control_id profile_controls controls_by_label control_name =
        some control_name) ∧
    (dmem controls_by_label control_name = false →
      control_name ∉ profile_controls →
      get_profile_control_id profile_controls controls_by_label control_name = none) := by
  refine ⟨?_, ?_, ?_⟩ <;> intro h₁ <;> try intro h₂
  · simp [get_profile_control_id, h₁]
  · simp [get_profile_control_id, h₁, h₂]
  · simp [get_profile_control_id, h₁, h₂]

/-- Witness for C5 (amended), on the index of `c5CexControls`: "b" is a
known label and maps to "a"; "a" is a known id and no label, and
resolves to itself; "zz" is neither and resolves to `none`. -/
theorem get_profile_control_id_cases_witness :
    get_profile_control_id (resolve_profile_to_controls c5CexControls).1
        (resolve_profile_to_controls c5CexControls).2 "b" =
      dget (resolve_profile_to_controls c5CexControls).2 "b" ∧
    get_profile_control_id (resolve_profile_to_controls c5CexControls).1
        (resolve_profile_to_controls c5CexControls).2 "a" = some "a" ∧
    get_profile_control_id (resolve_profile_to_controls c5CexControls).1
        (resolve_profile_to_controls c5CexControls).2 "zz" = none :=
  ⟨(get_profile_control_id_cases _ _ "b").1 (by decide),
   (get_profile_control_id_cases _ _ "a").2.1 (by decide) (by decide),
   (get_profile_control_id_cases _ _ "zz").2.2 (by decide) (by decide)⟩

/-! ## C9: unresolvable policy controls are skipped -/

/-- **C9**: building control implementations emits, in policy order, one
implemented-requirement record per control that resolves against the
index (with the resolved id and the control's notes), and a control
whose id does not resolve yields no record and no exception — the loop
is exactly a `filterMap`. -/
theorem get_control_implementation_skips_unresolved (profile_controls : List String)
    (controls_by_label : List (String × String)) (controls : List PolicyControl) :
    get_control_implementation profile_controls controls_by_label controls =
      controls.filterMap
        (create_implemented_requirement profile_controls controls_by_label) ∧
    (∀ c, get_profile_control_id profile_controls controls_by_label c.id = none →
      create_implemented_requirement profile_controls controls_by_label c = none) ∧
    (∀ c cid, get_profile_control_id profile_controls controls_by_label c.id = some cid →
      create_implemented_requirement profile_controls controls_by_label c =
        some ⟨cid, c.notes⟩) := by
  refine ⟨?_, ?_, ?_⟩
  · induction controls with
    | nil => rfl
    | cons c rest ih =>
      rw [List.filterMap_cons]
      unfold get_control_implementation
      cases h : create_implemented_requirement profile_controls controls_by_label c <;>
        simp [h, ih]
  · intro c h
    unfold create_implemented_requirement
    rw [h]
  · intro c cid h
    unfold create_implemented_requirement
    rw [h]

/-- Witness for C9: with the index of `c1WitControl` and a policy
containing the unknown control "ZZ-99", exactly the record for "AC-1"
is produced and "ZZ-99" yields none. -/
theorem get_control_implementation_skips_unresolved_witness :
    get_control_implementation (resolve_profile_to_controls [c1WitControl]).1
        (resolve_profile_to_controls [c1WitControl]).2 c9Policy =
      [⟨"AC-1", "impl note"⟩] ∧
    create_implemented_requirement (resolve_profile_to_controls [c1WitControl]).1
        (resolve_profile_to_controls [c1WitControl]).2 ⟨"ZZ-99", "x"⟩ = none :=
  ⟨Eq.trans
      (get_control_implementation_skips_unresolved _ _ c9Policy).1
      (by decide),
   (get_control_implementation_skips_unresolved _ _ c9Policy).2.1 ⟨"ZZ-99", "x"⟩
      (by decide)⟩

/-! ## C7: property ordering and rule-set namespacing -/

theorem get_rule_properties_eq_block (ns : String) (r : RuleInfo) :
    get_rule_properties ns r = ruleBlockSpec ns r := rfl

theorem transformAux_enumFrom (total : Nat) (objs : List RuleInfo) :
    ∀ i, transformAux total i objs =
      ((objs.enumFrom i).map
        (fun x => get_rule_properties (ruleSetId x.1 total) x.2)).flatten := by
  induction objs with
  | nil => intro i; rfl
  | cons r rest ih =>
    intro i
    simp only [transformAux, List.enumFrom, List.map_cons, List.flatten_cons, ih]

/-- **C7**: `transform` emits, for each rule in list order, a rule-id
property and a rule-description property followed by the
id/description/default-value/options-string quadruple of each attached
parameter in attachment order, and every property of one rule carries
the same rule-set namespace `ruleSetId i total` — a pure function of
the rule's index and the total rule count (`transformSpec` is this
ordering written out from the spec). -/
theorem transform_matches_spec (rule_objs : List RuleInfo) :
    transform rule_objs = transformSpec rule_objs := by
  unfold transform transformSpec
  rw [transformAux_enumFrom]
  rfl

/-! ## C1: coverage of the control-tree index -/

theorem hpf_mono_ids : ∀ (f : PartForest) (st : TreeIndex) (x : String),
    x ∈ st.1 → x ∈ (handle_parts_forest f st).1
  | .nil, _, _, h => h
  | .cons (PartT.mk pid plabel pparts) rest, (ids, lbls), x, h => by
    simp only [handle_parts_forest]
    exact hpf_mono_ids rest _ x (hpf_mono_ids pparts _ x (mem_sadd_of_mem pid h))

theorem hpf_mono_lbls : ∀ (f : PartForest) (st : TreeIndex) (l : String),
    dmem st.2 l = true → dmem (handle_parts_forest f st).2 l = true
  | .nil, _, _, h => h
  | .cons (PartT.mk pid plabel pparts) rest, (ids, lbls), l, h => by
    simp only [handle_parts_forest]
    refine hpf_mono_lbls rest _ l (hpf_mono_lbls pparts _ l ?_)
    show dmem (if plabel ≠ "" then dset lbls plabel pid else lbls) l = true
    by_cases hl : plabel ≠ ""
    · rw [if_pos hl]; exact dmem_dset_of _ _ h
    · rw [if_neg hl]; exact h

theorem hpf_ids_sub : ∀ (f : PartForest) (st : TreeIndex) (x : String),
    x ∈ forestIds f → x ∈ (handle_parts_forest f st).1
  | .cons (PartT.mk pid plabel pparts) rest, (ids, lbls), x, hx => by
    simp only [handle_parts_forest]
    have hx' : x = pid ∨ x ∈ forestIds pparts ∨ x ∈ forestIds rest := by
      simpa [forestIds, partIds] using hx
    rcases hx' with rfl | hsub | htail
    · exact hpf_mono_ids rest _ x (hpf_mono_ids pparts _ x (mem_sadd_self ids x))
    · exact hpf_mono_ids rest _ x (hpf_ids_sub pparts _ x hsub)
    · exact hpf_ids_sub rest _ x htail

theorem hpf_lbls_sub : ∀ (f : PartForest) (st : TreeIndex) (l i : String),
    (l, i) ∈ forestLabels f → dmem (handle_parts_forest f st).2 l = true
  | .cons (PartT.mk pid plabel pparts) rest, (ids, lbls), l, i, hl => by
    simp only [handle_parts_forest]
    have hl' : (¬plabel = "" ∧ l = plabel ∧ i = pid) ∨
        (l, i) ∈ forestLabels pparts ∨ (l, i) ∈ forestLabels rest := by
      simpa [forestLabels, partLabels, apply_ite (fun s => (l, i) ∈ s)] using hl
    rcases hl' with ⟨hpl, rfl, rfl⟩ | hsub | htail
    · refine hpf_mono_lbls rest _ l (hpf_mono_lbls pparts _ l ?_)
      show dmem (if l ≠ "" then dset lbls l i else lbls) l = true
      rw [if_pos hpl]
      exact dmem_dset_self _ _ _
    · exact hpf_mono_lbls rest _ l (hpf_lbls_sub pparts _ l i hsub)
    · exact hpf_lbls_sub rest _ l i htail

theorem ra_mono_ids (cs : List Control) : ∀ (st : TreeIndex) (x : String),
    x ∈ st.1 → x ∈ (resolveAux cs st).1 := by
  induction cs with
  | nil => intro st x h; exact h
  | cons c rest ih =>
    intro st x h
    obtain ⟨ids, lbls⟩ := st
    simp only [resolveAux]
    apply ih
    by_cases hl : c.label ≠ ""
    · rw [if_pos hl]
      exact hpf_mono_ids _ _ x (mem_sadd_of_mem c.id h)
    · rw [if_neg hl]
      exact mem_sadd_of_mem c.id h

theorem ra_mono_lbls (cs : List Control) : ∀ (st : TreeIndex) (l : String),
    dmem st.2 l = true → dmem (resolveAux cs st).2 l = true := by
  induction cs with
  | nil => intro st l h; exact h
  | cons c rest ih =>
    intro st l h
    obtain ⟨ids, lbls⟩ := st
    simp only [resolveAux]
    apply ih
    by_cases hl : c.label ≠ ""
    · rw [if_pos hl]
      exact hpf_mono_lbls _ _ l (dmem_dset_of _ _ h)
    · rw [if_neg hl]
      exact h

theorem ra_covers (cs : List Control) : ∀ (st : TreeIndex) (c : Control), c ∈ cs →
    c.id ∈ (resolveAux cs st).1 ∧
    (c.label ≠ "" →
      dmem (resolveAux cs st).2 c.label = true ∧
      (∀ x ∈ forestIds c.parts, x ∈ (resolveAux cs st).1) ∧
      (∀ li ∈ forestLabels c.parts, dmem (resolveAux cs st).2 li.1 = true)) := by
  induction cs with
  | nil => intro st c hc; cases hc
  | cons c0 rest ih =>
    intro st c hc
    obtain ⟨ids, lbls⟩ := st
    rcases List.mem_cons.mp hc with rfl | hmem
    · constructor
      · simp only [resolveAux]
        apply ra_mono_ids
        by_cases hl : c.label ≠ ""
        · rw [if_pos hl]
          exact hpf_mono_ids _ _ _ (mem_sadd_self ids c.id)
        · rw [if_neg hl]
          exact mem_sadd_self ids c.id
      · intro hl
        simp only [resolveAux]
        rw [if_pos hl]
        refine ⟨?_, ?_, ?_⟩
        · exact ra_mono_lbls rest _ _ (hpf_mono_lbls _ _ _ (dmem_dset_self lbls c.label c.id))
        · intro x hx
          exact ra_mono_ids rest _ x (hpf_ids_sub _ _ x hx)
        · intro li hli
          obtain ⟨l, i⟩ := li
          exact ra_mono_lbls rest _ l (hpf_lbls_sub _ _ l i hli)
    · simp only [resolveAux]
      exact ih _ c hmem

/-- **C1** counterexample: in `c1CexControls` the control "c1" has no
label and a part "p1"; the built index contains "c1" but not "p1",
because `resolve_profile_to_controls` only calls `handle_parts` inside
the `if label:` branch — so `known_ids` does not contain the parts of
label-less controls, contrary to the claim. -/
theorem resolve_skips_parts_of_unlabeled_control :
    "c1" ∈ (resolve_profile_to_controls c1CexControls).1 ∧
    "p1" ∉ (resolve_profile_to_controls c1CexControls).1 ∧
    (∃ c ∈ c1CexControls, "p1" ∈ forestIds c.parts) := by
  decide

/-- **C1** (amended): the index built by `resolve_profile_to_controls`
contains the id of every control yielded by the catalog; for every
control with a label, `by_label` has an entry for that label, every
part reachable under the control (labeled or not) has its id in
`known_ids`, and every labeled reachable part has an entry in
`by_label`.  (Parts of label-less controls are not traversed.) -/
theorem resolve_profile_covers (catalog_controls : List Control) (c : Control)
    (hc : c ∈ catalog_controls) :
    c.id ∈ (resolve_profile_to_controls catalog_controls).1 ∧
    (c.label ≠ "" →
      dmem (resolve_profile_to_controls catalog_controls).2 c.label = true ∧
      (∀ x ∈ forestIds c.parts, x ∈ (resolve_profile_to_controls catalog_controls).1) ∧
      (∀ li ∈ forestLabels c.parts,
        dmem (resolve_profile_to_controls catalog_controls).2 li.1 = true)) :=
  ra_covers catalog_controls ([], []) c hc

/-- Witness for C1 (amended): the labeled control "AC-1" with its parts
"AC-1_smt" (labeled "smt") and "AC-1_smt.a" (unlabeled). -/
theorem resolve_profile_covers_witness :
    "AC-1" ∈ (resolve_profile_to_controls [c1WitControl]).1 ∧
    dmem (resolve_profile_to_controls [c1WitControl]).2 "ac-1" = true ∧
    "AC-1_smt.a" ∈ (resolve_profile_to_controls [c1WitControl]).1 ∧
    dmem (resolve_profile_to_controls [c1WitControl]).2 "smt" = true := by
  have h := resolve_profile_covers [c1WitControl] c1WitControl (List.Mem.head _)
  have h2 := h.2 (by decide)
  exact ⟨h.1, h2.1, h2.2.1 "AC-1_smt.a" (by decide), h2.2.2 ("smt", "AC-1_smt") (by decide)⟩

/-! ## Lemmas on the parameter store and `get_params_for_id` -/

theorem dget_dset_ne {α : Type} (m : List (String × α)) (k k' : String) (v : α)
    (h : k ≠ k') : dget (dset m k v) k' = dget m k' := by
  simp [dget, dset, List.find?]
  have hb : (k == k') = false := by simpa using h
  simp [hb]

theorem dmem_dset_of_dmem_self {α : Type} (m : List (String × α)) (k : String)
    (v : α) (h : dmem m k = true) : ∀ k', dmem (dset m k v) k' = dmem m k' := by
  intro k'
  rw [dmem_dset]
  by_cases hk : k = k'
  · subst hk; simp [h]
  · have hb : (k == k') = false := beq_eq_false_iff_ne.mpr hk
    simp [hb]

theorem wf_dset (m : ParamStore) (k : String) (v : ParamInfo) (hv : v.id = k)
    (hwf : ∀ k' q, dget m k' = some q → q.id = k') :
    ∀ k' q, dget (dset m k v) k' = some q → q.id = k' := by
  intro k' q h
  by_cases hk : k = k'
  · subst hk
    rw [dget_dset] at h
    injection h with h
    subst h
    exact hv
  · rw [dget_dset_ne _ _ _ _ hk] at h
    exact hwf k' q h

theorem get_params_for_id_of_dget {store : ParamStore} {param_id : String}
    {q : ParamInfo} (hq : dget store param_id = some q) :
    get_params_for_id store param_id = .ok q := by
  unfold get_params_for_id
  rw [dmem_of_dget hq, hq]
  simp

theorem get_params_for_id_of_not_dmem (store : ParamStore) (param_id : String)
    (h : dmem store param_id = false) :
    get_params_for_id store param_id = .error ("Could not find parameter " ++ param_id) := by
  unfold get_params_for_id
  rw [h]
  simp

theorem get_params_for_id_ok_of_dmem (store : ParamStore) (param_id : String)
    (h : dmem store param_id = true) :
    ∃ q, get_params_for_id store param_id = .ok q := by
  obtain ⟨q, hq⟩ := Option.isSome_iff_exists.mp ((dmem_iff_dget store param_id).mp h)
  exact ⟨q, get_params_for_id_of_dget hq⟩

theorem get_params_for_id_ok_dget {store : ParamStore} {param_id : String}
    {q : ParamInfo} (h : get_params_for_id store param_id = .ok q) :
    dget store param_id = some q := by
  by_cases hm : dmem store param_id = true
  · obtain ⟨q', hq'⟩ := Option.isSome_iff_exists.mp ((dmem_iff_dget store param_id).mp hm)
    rw [get_params_for_id_of_dget hq'] at h
    injection h with h
    subst h
    exact hq'
  · rw [get_params_for_id_of_not_dmem store param_id (Bool.eq_false_iff.mpr hm)] at h
    cases h

/-! ## Per-rule loading specifications -/

theorem new_rule_obj_ok (T : TransformerEnv) (r : String) (ro : RuleInfo)
    (h : new_rule_obj T r = .ok ro) :
    ro.id = r ∧ ro.description = "" ∧ ro.parameters = [] := by
  unfold new_rule_obj at h
  cases h1 : truthyStr (from_rules_json T r) with
  | some d =>
    rw [h1] at h
    simp only [Except.ok.injEq] at h
    subst h
    exact ⟨rfl, rfl, rfl⟩
  | none =>
    rw [h1] at h
    cases h2 : truthyStr (from_product_dir T r) with
    | some d =>
      rw [h2] at h
      simp only [Except.ok.injEq] at h
      subst h
      exact ⟨rfl, rfl, rfl⟩
    | none =>
      rw [h2] at h
      cases h

theorem get_params_ids_ok_spec (ry : RuleYaml) (ro : RuleInfo)
    (pv : List (String × String)) (store : ParamStore) (obj : RuleInfo)
    (store' : ParamStore) (h : get_params_ids ry ro pv store = .ok (obj, store')) :
    obj.id = ro.id ∧ (∀ k, dmem store' k = dmem store k) ∧
    ((∀ k q, dget store k = some q → q.id = k) →
      (∀ k q, dget store' k = some q → q.id = k) ∧
      (∀ p ∈ obj.parameters, p ∈ ro.parameters ∨ dmem store p.id = true)) := by
  unfold get_params_ids at h
  by_cases hmode : (!ry.templated) = true
  · rw [if_pos hmode] at h
    simp only [Except.ok.injEq, Prod.mk.injEq] at h
    obtain ⟨rfl, rfl⟩ := h
    exact ⟨rfl, fun k => rfl, fun hwf => ⟨hwf, fun p hp => Or.inl hp⟩⟩
  · rw [if_neg hmode] at h
    cases hx : dget ry.template_vars XCCDF_VARIABLE with
    | none =>
      simp only [hx, Except.ok.injEq, Prod.mk.injEq] at h
      obtain ⟨rfl, rfl⟩ := h
      exact ⟨rfl, fun k => rfl, fun hwf => ⟨hwf, fun p hp => Or.inl hp⟩⟩
    | some pid =>
      simp only [hx] at h
      cases hg : get_params_for_id store pid with
      | error e => simp only [hg] at h; exact Except.noConfusion h
      | ok param =>
        simp only [hg] at h
        have hdg : dget store pid = some param := get_params_for_id_ok_dget hg
        have hdm : dmem store pid = true := dmem_of_dget hdg
        by_cases hov : pv ≠ [] ∧ dmem pv pid
        · rw [if_pos hov] at h
          cases hpv : dget pv pid with
          | none =>
            simp only [hpv, Except.ok.injEq, Prod.mk.injEq] at h
            obtain ⟨rfl, rfl⟩ := h
            refine ⟨rfl, fun k => rfl, fun hwf => ⟨hwf, fun p hp => ?_⟩⟩
            rcases List.mem_append.mp hp with hin | hone
            · exact Or.inl hin
            · rw [List.mem_singleton.mp hone]
              exact Or.inr ((hwf pid param hdg) ▸ hdm)
          | some v =>
            simp only [hpv, Except.ok.injEq, Prod.mk.injEq] at h
            obtain ⟨rfl, rfl⟩ := h
            refine ⟨rfl, dmem_dset_of_dmem_self store pid _ hdm, fun hwf => ?_⟩
            have hid : (param.set_default_value v).id = pid := hwf pid param hdg
            refine ⟨wf_dset store pid _ hid hwf, fun p hp => ?_⟩
            rcases List.mem_append.mp hp with hin | hone
            · exact Or.inl hin
            · rw [List.mem_singleton.mp hone]
              exact Or.inr (hid ▸ hdm)
        · rw [if_neg hov] at h
          simp only [Except.ok.injEq, Prod.mk.injEq] at h
          obtain ⟨rfl, rfl⟩ := h
          refine ⟨rfl, fun k => rfl, fun hwf => ⟨hwf, fun p hp => ?_⟩⟩
          rcases List.mem_append.mp hp with hin | hone
          · exact Or.inl hin
          · rw [List.mem_singleton.mp hone]
            exact Or.inr ((hwf pid param hdg) ▸ hdm)

theorem attemptRule_ok_spec (T : TransformerEnv) (pv : List (String × String))
    (r : String) (store : ParamStore) (obj : RuleInfo) (store' : ParamStore)
    (h : attemptRule T pv r store = .ok (obj, store')) :
    obj.id = r ∧ (∀ k, dmem store' k = dmem store k) ∧
    ((∀ k q, dget store k = some q → q.id = k) →
      (∀ k q, dget store' k = some q → q.id = k) ∧
      (∀ p ∈ obj.parameters, dmem store p.id = true)) := by
  unfold attemptRule at h
  cases hN : new_rule_obj T r with
  | error e => simp only [hN] at h; exact Except.noConfusion h
  | ok ro =>
    simp only [hN] at h
    obtain ⟨hroid, _, hropar⟩ := new_rule_obj_ok T r ro hN
    unfold load_rule_yaml at h
    cases hY : T.rule_yaml_of_dir ro.rule_dir with
    | none => simp only [hY] at h; exact Except.noConfusion h
    | some ry =>
      simp only [hY] at h
      obtain ⟨hid, hmem, hnest⟩ := get_params_ids_ok_spec ry _ pv store obj store' h
      refine ⟨by rw [hid]; exact hroid, hmem, fun hwf => ?_⟩
      obtain ⟨hwf', hpar⟩ := hnest hwf
      refine ⟨hwf', fun p hp => ?_⟩
      rcases hpar p hp with hin | hdm
      · have hin' : p ∈ ro.parameters := hin
        rw [hropar] at hin'
        cases hin'
      · exact hdm

/-! ## Stability of per-rule outcomes under store updates -/

theorem get_params_ids_error_stable (ry : RuleYaml) (ro : RuleInfo)
    (pv : List (String × String)) (store₁ store₂ : ParamStore)
    (hm : ∀ k, dmem store₁ k = dmem store₂ k) (e : LoadErr)
    (h : get_params_ids ry ro pv store₁ = .error e) :
    get_params_ids ry ro pv store₂ = .error e := by
  unfold get_params_ids at h ⊢
  by_cases hmode : (!ry.templated) = true
  · rw [if_pos hmode] at h
    exact Except.noConfusion h
  · rw [if_neg hmode] at h ⊢
    cases hx : dget ry.template_vars XCCDF_VARIABLE with
    | none =>
      simp only [hx] at h
      exact Except.noConfusion h
    | some pid =>
      simp only [hx] at h ⊢
      by_cases hmem : dmem store₂ pid = true
      · exfalso
        have hmem₁ : dmem store₁ pid = true := by rw [hm pid]; exact hmem
        obtain ⟨q₁, hq₁⟩ := get_params_for_id_ok_of_dmem store₁ pid hmem₁
        simp only [hq₁] at h
        by_cases hov : pv ≠ [] ∧ dmem pv pid
        · rw [if_pos hov] at h
          cases hpv : dget pv pid <;> simp only [hpv] at h <;> exact Except.noConfusion h
        · rw [if_neg hov] at h
          exact Except.noConfusion h
      · have hf₂ : dmem store₂ pid = false := Bool.eq_false_iff.mpr hmem
        have hf₁ : dmem store₁ pid = false := by rw [hm pid]; exact hf₂
        rw [get_params_for_id_of_not_dmem store₁ pid hf₁] at h
        rw [get_params_for_id_of_not_dmem store₂ pid hf₂]
        exact h

theorem get_params_ids_ok_stable (ry : RuleYaml) (ro : RuleInfo)
    (pv : List (String × String)) (store₁ store₂ : ParamStore)
    (hm : ∀ k, dmem store₁ k = dmem store₂ k) (obj : RuleInfo) (st : ParamStore)
    (h : get_params_ids ry ro pv store₁ = .ok (obj, st)) :
    ∃ obj₂ st₂, get_params_ids ry ro pv store₂ = .ok (obj₂, st₂) := by
  unfold get_params_ids at h ⊢
  by_cases hmode : (!ry.templated) = true
  · rw [if_pos hmode]
    exact ⟨_, _, rfl⟩
  · rw [if_neg hmode] at h ⊢
    cases hx : dget ry.template_vars XCCDF_VARIABLE with
    | none =>
      simp only [hx]
      exact ⟨_, _, rfl⟩
    | some pid =>
      simp only [hx] at h ⊢
      by_cases hmem : dmem store₂ pid = true
      · obtain ⟨q₂, hq₂⟩ := get_params_for_id_ok_of_dmem store₂ pid hmem
        simp only [hq₂]
        by_cases hov : pv ≠ [] ∧ dmem pv pid
        · rw [if_pos hov]
          cases hpv : dget pv pid <;> simp only [hpv] <;> exact ⟨_, _, rfl⟩
        · rw [if_neg hov]
          exact ⟨_, _, rfl⟩
      · exfalso
        have hf₂ : dmem store₂ pid = false := Bool.eq_false_iff.mpr hmem
        have hf₁ : dmem store₁ pid = false := by rw [hm pid]; exact hf₂
        rw [get_params_for_id_of_not_dmem store₁ pid hf₁] at h
        exact Except.noConfusion h

theorem attemptRule_error_stable (T : TransformerEnv) (pv : List (String × String))
    (r : String) (store₁ store₂ : ParamStore)
    (hm : ∀ k, dmem store₁ k = dmem store₂ k) (e : LoadErr)
    (h : attemptRule T pv r store₁ = .error e) :
    attemptRule T pv r store₂ = .error e := by
  unfold attemptRule at h ⊢
  cases hN : new_rule_obj T r with
  | error e' => simp only [hN] at h ⊢; exact h
  | ok ro =>
    simp only [hN] at h ⊢
    unfold load_rule_yaml at h ⊢
    cases hY : T.rule_yaml_of_dir ro.rule_dir with
    | none => simp only [hY] at h ⊢; exact h
    | some ry =>
      simp only [hY] at h ⊢
      exact get_params_ids_error_stable ry _ pv store₁ store₂ hm e h

theorem attemptRule_ok_stable (T : TransformerEnv) (pv : List (String × String))
    (r : String) (store₁ store₂ : ParamStore)
    (hm : ∀ k, dmem store₁ k = dmem store₂ k) (obj : RuleInfo) (st : ParamStore)
    (h : attemptRule T pv r store₁ = .ok (obj, st)) :
    ∃ obj₂ st₂, attemptRule T pv r store₂ = .ok (obj₂, st₂) := by
  unfold attemptRule at h ⊢
  cases hN : new_rule_obj T r with
  | error e' => simp only [hN] at h; exact Except.noConfusion h
  | ok ro =>
    simp only [hN] at h ⊢
    unfold load_rule_yaml at h ⊢
    cases hY : T.rule_yaml_of_dir ro.rule_dir with
    | none => simp only [hY] at h; exact Except.noConfusion h
    | some ry =>
      simp only [hY] at h ⊢
      exact get_params_ids_ok_stable ry _ pv store₁ store₂ hm obj st h

theorem ruleError_of_ok {T : TransformerEnv} {pv : List (String × String)}
    {r : String} {store : ParamStore} {pr : RuleInfo × ParamStore}
    (hA : attemptRule T pv r store = .ok pr) : ruleError T pv store r = none := by
  unfold ruleError
  rw [hA]

theorem ruleError_of_valueError {T : TransformerEnv} {pv : List (String × String)}
    {r : String} {store : ParamStore} {e : String}
    (hA : attemptRule T pv r store = .error (.valueError e)) :
    ruleError T pv store r = some ("Could not find rule " ++ r ++ ": " ++ e) := by
  unfold ruleError
  rw [hA]

theorem ruleError_of_fileNotFound {T : TransformerEnv} {pv : List (String × String)}
    {r : String} {store : ParamStore} {e : String}
    (hA : attemptRule T pv r store = .error (.fileNotFound e)) :
    ruleError T pv store r = some ("Could not load rule " ++ r ++ ": " ++ e) := by
  unfold ruleError
  rw [hA]

theorem ruleError_stable (T : TransformerEnv) (pv : List (String × String))
    (store₁ store₂ : ParamStore) (hm : ∀ k, dmem store₁ k = dmem store₂ k)
    (r : String) : ruleError T pv store₁ r = ruleError T pv store₂ r := by
  cases hA : attemptRule T pv r store₁ with
  | ok pr =>
    obtain ⟨obj₂, st₂, hA₂⟩ := attemptRule_ok_stable T pv r store₁ store₂ hm pr.1 pr.2
      (by rw [← hA])
    rw [ruleError_of_ok hA, ruleError_of_ok hA₂]
  | error e =>
    have hA₂ := attemptRule_error_stable T pv r store₁ store₂ hm e hA
    cases e with
    | valueError m => rw [ruleError_of_valueError hA, ruleError_of_valueError hA₂]
    | fileNotFound m => rw [ruleError_of_fileNotFound hA, ruleError_of_fileNotFound hA₂]

theorem ruleError_msg_shape (T : TransformerEnv) (pv : List (String × String))
    (store : ParamStore) (r e : String) (h : ruleError T pv store r = some e) :
    ∃ m, e = "Could not find rule " ++ r ++ ": " ++ m ∨
         e = "Could not load rule " ++ r ++ ": " ++ m := by
  cases hA : attemptRule T pv r store with
  | ok pr =>
    rw [ruleError_of_ok hA] at h
    exact Option.noConfusion h
  | error le =>
    cases le with
    | valueError m =>
      rw [ruleError_of_valueError hA] at h
      exact ⟨m, Or.inl (Option.some.inj h).symm⟩
    | fileNotFound m =>
      rw [ruleError_of_fileNotFound hA] at h
      exact ⟨m, Or.inr (Option.some.inj h).symm⟩

/-! ## The accumulation loop of `load` -/

theorem loadLoop_cons_ok {T : TransformerEnv} {pv : List (String × String)}
    {r : String} {rest : List String} {store store₁ st₁ : ParamStore}
    {obj : RuleInfo} {objs₁ : List RuleInfo} {errs₁ : List String}
    (h : attemptRule T pv r store = .ok (obj, store₁))
    (hL : loadLoop T pv rest store₁ = (objs₁, errs₁, st₁)) :
    loadLoop T pv (r :: rest) store = (obj :: objs₁, errs₁, st₁) := by
  unfold loadLoop
  simp only [h, hL]

theorem loadLoop_cons_valueError {T : TransformerEnv} {pv : List (String × String)}
    {r : String} {rest : List String} {store st₁ : ParamStore} {e : String}
    {objs₁ : List RuleInfo} {errs₁ : List String}
    (h : attemptRule T pv r store = .error (.valueError e))
    (hL : loadLoop T pv rest store = (objs₁, errs₁, st₁)) :
    loadLoop T pv (r :: rest) store =
      (objs₁, ("Could not find rule " ++ r ++ ": " ++ e) :: errs₁, st₁) := by
  unfold loadLoop
  simp only [h, hL]

theorem loadLoop_cons_fileNotFound {T : TransformerEnv} {pv : List (String × String)}
    {r : String} {rest : List String} {store st₁ : ParamStore} {e : String}
    {objs₁ : List RuleInfo} {errs₁ : List String}
    (h : attemptRule T pv r store = .error (.fileNotFound e))
    (hL : loadLoop T pv rest store = (objs₁, errs₁, st₁)) :
    loadLoop T pv (r :: rest) store =
      (objs₁, ("Could not load rule " ++ r ++ ": " ++ e) :: errs₁, st₁) := by
  unfold loadLoop
  simp only [h, hL]

theorem filterMap_ext {α β : Type} (f g : α → Option β) (h : ∀ a, f a = g a) :
    ∀ l : List α, l.filterMap f = l.filterMap g := by
  intro l
  induction l with
  | nil => rfl
  | cons a t ih => rw [List.filterMap_cons, List.filterMap_cons, h a, ih]

theorem filter_ext {α : Type} (f g : α → Bool) (h : ∀ a, f a = g a) :
    ∀ l : List α, l.filter f = l.filter g := by
  intro l
  induction l with
  | nil => rfl
  | cons a t ih => rw [List.filter_cons, List.filter_cons, h a, ih]

theorem filterMap_eq_nil_all {α β : Type} (f : α → Option β) :
    ∀ l : List α, l.filterMap f = [] → ∀ a ∈ l, f a = none := by
  intro l
  induction l with
  | nil => intro _ a ha; cases ha
  | cons b t ih =>
    intro hnil a ha
    rw [List.filterMap_cons] at hnil
    cases hb : f b with
    | some v => rw [hb] at hnil; cases hnil
    | none =>
      rw [hb] at hnil
      rcases List.mem_cons.mp ha with rfl | hmem
      · exact hb
      · exact ih hnil a hmem

theorem loadLoop_spec (T : TransformerEnv) (pv : List (String × String)) :
    ∀ (rs : List String) (store : ParamStore),
      (loadLoop T pv rs store).2.1 = rs.filterMap (ruleError T pv store) ∧
      (loadLoop T pv rs store).1.map RuleInfo.id =
        rs.filter (fun x => (ruleError T pv store x).isNone) ∧
      (∀ k, dmem (loadLoop T pv rs store).2.2 k = dmem store k) ∧
      ((∀ k q, dget store k = some q → q.id = k) →
        ∀ obj ∈ (loadLoop T pv rs store).1, ∀ p ∈ obj.parameters,
          dmem store p.id = true) := by
  intro rs
  induction rs with
  | nil =>
    intro store
    refine ⟨rfl, rfl, fun k => rfl, fun hwf obj hobj => ?_⟩
    simp only [loadLoop] at hobj
    cases hobj
  | cons r rest ih =>
    intro store
    cases hA : attemptRule T pv r store with
    | ok pr =>
      obtain ⟨obj, store₁⟩ := pr
      rcases hL : loadLoop T pv rest store₁ with ⟨objs₁, errs₁, st₁⟩
      have hcons := loadLoop_cons_ok hA hL
      obtain ⟨hid, hmemEq, hnest⟩ := attemptRule_ok_spec T pv r store obj store₁ hA
      obtain ⟨ihErr, ihIds, ihMem, ihPar⟩ := ih store₁
      simp only [hL] at ihErr ihIds ihMem ihPar
      have hstab : ∀ x, ruleError T pv store₁ x = ruleError T pv store x :=
        fun x => ruleError_stable T pv store₁ store hmemEq x
      have hre : ruleError T pv store r = none := ruleError_of_ok hA
      rw [hcons]
      refine ⟨?_, ?_, ?_, ?_⟩
      · show errs₁ = (r :: rest).filterMap (ruleError T pv store)
        simp only [List.filterMap_cons, hre]
        rw [ihErr]
        exact filterMap_ext _ _ hstab rest
      · show (obj :: objs₁).map RuleInfo.id =
          (r :: rest).filter (fun x => (ruleError T pv store x).isNone)
        simp only [List.map_cons, List.filter_cons, hre, Option.isNone_none, if_true]
        rw [hid, ihIds]
        have := filter_ext (fun x => (ruleError T pv store₁ x).isNone)
          (fun x => (ruleError T pv store x).isNone)
          (fun a => congrArg Option.isNone (hstab a)) rest
        rw [this]
      · show ∀ k, dmem st₁ k = dmem store k
        intro k
        rw [ihMem k, hmemEq k]
      · show (∀ k q, dget store k = some q → q.id = k) →
          ∀ o ∈ obj :: objs₁, ∀ p ∈ o.parameters, dmem store p.id = true
        intro hwf o ho p hp
        obtain ⟨hwf₁, hparObj⟩ := hnest hwf
        rcases List.mem_cons.mp ho with rfl | hmem
        · exact hparObj p hp
        · rw [← hmemEq p.id]
          exact ihPar hwf₁ o hmem p hp
    | error le =>
      rcases hL : loadLoop T pv rest store with ⟨objs₁, errs₁, st₁⟩
      obtain ⟨ihErr, ihIds, ihMem, ihPar⟩ := ih store
      simp only [hL] at ihErr ihIds ihMem ihPar
      cases le with
      | valueError e =>
        have hcons := loadLoop_cons_valueError hA hL
        have hre := ruleError_of_valueError hA
        rw [hcons]
        refine ⟨?_, ?_, ?_, ?_⟩
        · show ("Could not find rule " ++ r ++ ": " ++ e) :: errs₁ =
            (r :: rest).filterMap (ruleError T pv store)
          simp only [List.filterMap_cons, hre]
          rw [ihErr]
        · show objs₁.map RuleInfo.id =
            (r :: rest).filter (fun x => (ruleError T pv store x).isNone)
          simp only [List.filter_cons, hre, Option.isNone_some, Bool.false_eq_true,
            if_false]
          exact ihIds
        · exact ihMem
        · intro hwf o ho p hp
          exact ihPar hwf o ho p hp
      | fileNotFound e =>
        have hcons := loadLoop_cons_fileNotFound hA hL
        have hre := ruleError_of_fileNotFound hA
        rw [hcons]
        refine ⟨?_, ?_, ?_, ?_⟩
        · show ("Could not load rule " ++ r ++ ": " ++ e) :: errs₁ =
            (r :: rest).filterMap (ruleError T pv store)
          simp only [List.filterMap_cons, hre]
          rw [ihErr]
        · show objs₁.map RuleInfo.id =
            (r :: rest).filter (fun x => (ruleError T pv store x).isNone)
          simp only [List.filter_cons, hre, Option.isNone_some, Bool.false_eq_true,
            if_false]
          exact ihIds
        · exact ihMem
        · intro hwf o ho p hp
          exact ihPar hwf o ho p hp

/-! ## C6: all-or-aggregate-error contract of `load` -/

theorem load_eq (T : TransformerEnv) (store : ParamStore) (rules : List String) :
    load T store rules =
      (if (loadLoop T (process_rule_ids rules).2 (process_rule_ids rules).1 store).2.1.length > 0
       then .error (aggregate_error
          (loadLoop T (process_rule_ids rules).2 (process_rule_ids rules).1 store).2.1)
       else .ok (loadLoop T (process_rule_ids rules).2 (process_rule_ids rules).1 store).1,
       (loadLoop T (process_rule_ids rules).2 (process_rule_ids rules).1 store).2.2) := rfl

/-- **C6**: `load` attempts every requested plain rule id; when every
attempt succeeds it returns exactly one `RuleInfo` per plain id in
request order (so `k` objects for `k` plain ids, the `key=value`
entries having been diverted to the override map), and when any rule
fails it raises a single aggregate error whose message list has one
entry per failing rule, each entry naming that rule's id ("Could not
find rule <id>: …" or "Could not load rule <id>: …"). -/
theorem load_batch_contract (T : TransformerEnv) (store : ParamStore)
    (rules : List String) :
    ((process_rule_ids rules).1.filterMap
        (ruleError T (process_rule_ids rules).2 store) = [] →
      ∃ objs, (load T store rules).1 = .ok objs ∧
        objs.map RuleInfo.id = (process_rule_ids rules).1) ∧
    (∀ errs, (process_rule_ids rules).1.filterMap
        (ruleError T (process_rule_ids rules).2 store) = errs → errs ≠ [] →
      (load T store rules).1 = .error (aggregate_error errs)) ∧
    (∀ r e, ruleError T (process_rule_ids rules).2 store r = some e →
      ∃ m, e = "Could not find rule " ++ r ++ ": " ++ m ∨
           e = "Could not load rule " ++ r ++ ": " ++ m) := by
  rcases hL : loadLoop T (process_rule_ids rules).2 (process_rule_ids rules).1 store
    with ⟨objs0, errs0, st0⟩
  obtain ⟨sErr, sIds, sMem, sPar⟩ :=
    loadLoop_spec T (process_rule_ids rules).2 (process_rule_ids rules).1 store
  simp only [hL] at sErr sIds
  have hload : (load T store rules).1 =
      (if errs0.length > 0 then .error (aggregate_error errs0) else .ok objs0) := by
    rw [load_eq, hL]
  refine ⟨?_, ?_, fun r e h => ruleError_msg_shape T _ store r e h⟩
  · intro hnil
    have herrs : errs0 = [] := sErr.trans hnil
    refine ⟨objs0, ?_, ?_⟩
    · rw [hload, herrs]
      simp
    · rw [sIds]
      apply List.filter_eq_self.mpr
      intro a ha
      rw [filterMap_eq_nil_all _ _ hnil a ha]
      rfl
  · intro errs heq hne
    have herrs : errs0 = errs := sErr.trans heq
    subst herrs
    rw [hload]
    rw [if_pos (List.length_pos.mpr hne)]

/-- Witness for C6: on a batch of two resolvable plain ids plus one
override, no per-rule error arises and `load` returns the two rules in
request order; on a batch containing the unknown id "missing", `load`
raises the aggregate error naming it, and the per-rule error message
embeds the failing id. -/
theorem load_batch_contract_witness :
    (process_rule_ids ["rule_a", "rule_b", "P=bar"]).1.filterMap
        (ruleError envTwoRules (process_rule_ids ["rule_a", "rule_b", "P=bar"]).2 storeP) = [] ∧
    (∃ objs, (load envTwoRules storeP ["rule_a", "rule_b", "P=bar"]).1 = .ok objs ∧
      objs.map RuleInfo.id = (process_rule_ids ["rule_a", "rule_b", "P=bar"]).1) ∧
    (load envTwoRules storeP ["rule_a", "missing"]).1 =
      .error (aggregate_error
        ["Could not find rule missing: Could not find rule missing in rules json or product directory."]) ∧
    (∃ m, ("Could not find rule missing: Could not find rule missing in rules json or product directory." : String) =
        "Could not find rule " ++ "missing" ++ ": " ++ m ∨
      ("Could not find rule missing: Could not find rule missing in rules json or product directory." : String) =
        "Could not load rule " ++ "missing" ++ ": " ++ m) :=
  ⟨by decide,
   (load_batch_contract envTwoRules storeP ["rule_a", "rule_b", "P=bar"]).1 (by decide),
   (load_batch_contract envTwoRules storeP ["rule_a", "missing"]).2.1
      ["Could not find rule missing: Could not find rule missing in rules json or product directory."]
      (by decide) (by decide),
   (load_batch_contract envTwoRules storeP ["rule_a", "missing"]).2.2 "missing"
      "Could not find rule missing: Could not find rule missing in rules json or product directory."
      (by decide)⟩

/-! ## C2: invariants of the returned rules -/

/-- **C2** counterexample: the rule "r1" has description `"<p></p>"`,
which normalizes to the empty string; `load` nevertheless returns it
successfully with an empty description — no check fails a rule with an
empty loaded description. -/
theorem empty_description_rule_is_returned :
    (load envEmptyDesc [] ["r1"]).1 = .ok [⟨"r1", "", "dir1", []⟩] ∧
    (RuleInfo.mk "r1" "" "dir1" []).description = "" := by
  decide

/-- **C2** (amended): every `ParamInfo` attached to a `RuleInfo`
returned by a successful `load` was resolved from a parameter id known
to the extractor's store (an unresolved reference is a hard
`ValueError` failure for that rule, so it can never be attached), but
the description of a returned rule may be empty — loading does not
fail a rule for an empty description. -/
theorem load_ok_params_known (T : TransformerEnv) (store : ParamStore)
    (rules : List String) (hwf : ∀ k q, dget store k = some q → q.id = k)
    (objs : List RuleInfo) (h : (load T store rules).1 = .ok objs) :
    ∀ obj ∈ objs, ∀ p ∈ obj.parameters, dmem store p.id = true := by
  rcases hL : loadLoop T (process_rule_ids rules).2 (process_rule_ids rules).1 store
    with ⟨objs0, errs0, st0⟩
  obtain ⟨sErr, sIds, sMem, sPar⟩ :=
    loadLoop_spec T (process_rule_ids rules).2 (process_rule_ids rules).1 store
  simp only [hL] at sPar
  have hload : (load T store rules).1 =
      (if errs0.length > 0 then .error (aggregate_error errs0) else .ok objs0) := by
    rw [load_eq, hL]
  rw [hload] at h
  by_cases hlen : errs0.length > 0
  · rw [if_pos hlen] at h
    exact Except.noConfusion h
  · rw [if_neg hlen] at h
    obtain rfl : objs0 = objs := Except.ok.inj h
    exact sPar hwf

theorem storeP_wf : ∀ k q, dget storeP k = some q → q.id = k := by
  intro k q hq
  by_cases hk : k = "P"
  · subst hk
    have hP : dget storeP "P" = some paramP := by decide
    rw [hP] at hq
    injection hq with hq
    subst hq
    rfl
  · have hnone : dget storeP k = none := by
      simp [dget, storeP, List.find?, beq_eq_false_iff_ne.mpr (Ne.symm hk)]
    rw [hnone] at hq
    cases hq

/-- Witness for C2 (amended): `rule_a` is templated on parameter "P",
which is in the store; the returned rule carries that parameter, whose
id is a known store key. -/
theorem load_ok_params_known_witness :
    (load envTwoRules storeP ["rule_a", "P=bar"]).1 =
      .ok [⟨"rule_a", "Rule one.", "dir_a",
            [ParamInfo.mk "P" "param desc" "bar" [("default", "foo")]]⟩] ∧
    ∀ obj ∈ [(⟨"rule_a", "Rule one.", "dir_a",
          [ParamInfo.mk "P" "param desc" "bar" [("default", "foo")]]⟩ : RuleInfo)],
      ∀ p ∈ obj.parameters, dmem storeP p.id = true :=
  ⟨by decide,
   load_ok_params_known envTwoRules storeP ["rule_a", "P=bar"] storeP_wf _ (by decide)⟩

/-! ## C3: inline overrides mutate the shared parameter store -/

/-- **C3** counterexample: loading `["rule_a", "P=bar"]` applies the
override by mutating the `ParamInfo` object stored in the extractor:
after the batch, the extractor's store differs from its initial state
and a later `get_params_for_id "P"` observes default "bar" instead of
the original "foo" — the override is **not** invisible outside the
batch. -/
theorem override_mutates_extractor_state :
    (load envTwoRules storeP ["rule_a", "P=bar"]).2 ≠ storeP ∧
    get_params_for_id (load envTwoRules storeP ["rule_a", "P=bar"]).2 "P" =
      .ok ⟨"P", "param desc", "bar", [("default", "foo")]⟩ ∧
    get_params_for_id storeP "P" =
      .ok ⟨"P", "param desc", "foo", [("default", "foo")]⟩ := by
  decide

/-- **C3** (amended): an inline override for a parameter referenced by
a loaded rule changes the default value of the `ParamInfo` attached to
that rule, **and** the same updated object is written back into the
extractor's store (Python mutates the stored object through an alias),
so later `get_params_for_id` calls observe the overridden default. -/
theorem override_applies_and_persists (ry : RuleYaml) (rule_obj : RuleInfo)
    (pv : List (String × String)) (store : ParamStore) (param_id : String)
    (q : ParamInfo) (v : String)
    (ht : ry.templated = true)
    (hx : dget ry.template_vars XCCDF_VARIABLE = some param_id)
    (hq : dget store param_id = some q)
    (hv : dget pv param_id = some v) :
    get_params_ids ry rule_obj pv store =
      .ok (rule_obj.add_parameter (q.set_default_value v),
           dset store param_id (q.set_default_value v)) ∧
    get_params_for_id (dset store param_id (q.set_default_value v)) param_id =
      .ok (q.set_default_value v) := by
  constructor
  · unfold get_params_ids
    rw [ht]
    simp only [Bool.not_true, Bool.false_eq_true, if_false]
    simp only [hx]
    simp only [get_params_for_id_of_dget hq]
    have hne : pv ≠ [] := by
      intro hE
      rw [hE] at hv
      simp [dget] at hv
    have hpm : dmem pv param_id = true := dmem_of_dget hv
    rw [if_pos ⟨hne, hpm⟩]
    simp only [hv]
  · exact get_params_for_id_of_dget (dget_dset store param_id _)

/-- Witness for C3 (amended): override "bar" for parameter "P" on a
rule templated on "P": the attached parameter and the store entry both
carry default "bar". -/
theorem override_applies_and_persists_witness :
    get_params_ids ruleYamlTemplated ⟨"rule_a", "Rule one.", "dir_a", []⟩
        [("P", "bar")] storeP =
      .ok ((⟨"rule_a", "Rule one.", "dir_a", []⟩ : RuleInfo).add_parameter
            (paramP.set_default_value "bar"),
           dset storeP "P" (paramP.set_default_value "bar")) ∧
    get_params_for_id (dset storeP "P" (paramP.set_default_value "bar")) "P" =
      .ok (paramP.set_default_value "bar") :=
  override_applies_and_persists ruleYamlTemplated ⟨"rule_a", "Rule one.", "dir_a", []⟩
    [("P", "bar")] storeP "P" paramP "bar" (by decide) (by decide) (by decide) (by decide)

end OscalCD
